import Mathlib

/-!
Shallow embedding of the learning library's generic training loop
(src/learning/base.py) and its Radial-Basis-Function model
(src/learning/architecture/rbf.py).

Numeric substrate: machine floats are embedded as rationals; matrices are
lists of rows.  External collaborators (the clustering sub-model, the
optimizer, the error function, the gaussian kernel of learning.calculate and
Python's random module) are abstracted as explicit parameters carrying
exactly the contracts the two embedded files rely on.
-/

namespace Learning

abbrev Vec := List ℚ

abbrev Mat := List (List ℚ)

/-- Dot product of two rows (numpy 1-d dot). -/
def dotL (u v : Vec) : ℚ := (List.zipWith (fun a b => a * b) u v).sum

/-- Componentwise sum of two rows (numpy +). -/
def addVec (u v : Vec) : Vec := List.zipWith (fun a b => a + b) u v

/-- Scalar multiple of a row. -/
def smulVec (a : ℚ) (v : Vec) : Vec := v.map (fun x => a * x)

/-- Column j of a matrix (rows assumed long enough where it matters). -/
def matColumn (j : ℕ) (M : Mat) : Vec := M.map (fun r => r.getD j 0)

/-- Product M . W for W with o columns (numpy.dot for 2-d operands). -/
def matMul (M W : Mat) (o : ℕ) : Mat :=
  M.map (fun row => (List.range o).map (fun j => dotL row (matColumn j W)))

/-- Row-broadcast addition of a bias vector (numpy broadcasting of + b). -/
def addBias (M : Mat) (b : Vec) : Mat := M.map (fun row => addVec row b)

/-- Column-wise sum of a matrix with o columns (numpy.sum(_, axis=0)). -/
def colSums (o : ℕ) (M : Mat) : Vec :=
  M.foldl (fun acc row => addVec acc row) (List.replicate o 0)

/-- Product S.T . J for S with c columns and J with o columns, written as the
outer-product accumulation over paired rows of S and J; entry (k, j) is the
sum over samples i of S i k * J i j, exactly numpy's S.T.dot(J) on
rectangular inputs. -/
def matTdot (S J : Mat) (c o : ℕ) : Mat :=
  (List.range c).map (fun k =>
    (S.zip J).foldl (fun acc p => addVec acc (smulVec (p.1.getD k 0) p.2))
      (List.replicate o 0))

/-- Squared euclidean norm; numpy.linalg.norm(v) < b is encoded on squares
(normSq v < b^2), equivalent for the nonnegative thresholds the code uses. -/
def normSq (v : Vec) : ℚ := (v.map (fun x => x ^ 2)).sum

/-- Mean of a list (numpy.mean on 1-d data). -/
def meanQ (l : List ℚ) : ℚ := l.sum / l.length

/-! Pattern selection functions (src/learning/base.py lines 7-35). -/

/-- Function select_iterative: return all rows in order. -/
def select_iterative (input_matrix target_matrix : Mat) : Mat × Mat :=
  (input_matrix, target_matrix)

/-- Function select_sample: a random selection of rows, without replacement.
The draw random.sample(range(num_rows), size) of the external random
substrate is abstracted as the explicit index list selected_rows; its
contract (size distinct indices below num_rows) becomes hypotheses of the
theorems below.  Both matrices are indexed by the same selected_rows. -/
def select_sample (input_matrix target_matrix : Mat) (selected_rows : List ℕ) :
    Mat × Mat :=
  (selected_rows.map (fun i => input_matrix.getD i []),
   selected_rows.map (fun i => target_matrix.getD i []))

/-! The generic Model training loop (src/learning/base.py lines 37-226). -/

/-- Function _all_close (base.py lines 221-226): true iff every value is
within threshold distance of other_value. -/
def _all_close : List ℚ → ℚ → ℚ → Bool
  | [], _, _ => true
  | value :: values, other_value, threshold =>
    if |value - other_value| > threshold then false
    else _all_close values other_value threshold

/-- Interface of a model as consumed by Model.train: train_step returns the
updated model state and an optional scalar error (None in Python when the
step yields no error); reset may raise (RBF.reset does), hence Except;
pre_iteration and post_iteration default to no-ops in the source and are
carried as explicit state transformers. -/
structure ModelI (σ : Type) where
  train_step : σ → Mat → Mat → σ × Option ℚ
  reset : σ → Except String σ
  avg_mse : σ → Mat → Mat → ℚ
  pre_iteration : σ → Mat → Mat → σ
  post_iteration : σ → Mat → Mat → σ

/-- Mutable locals of Model.train: the model state, self.iteration, the
error_history list and the last train_step error. -/
structure TrainState (σ : Type) where
  s : σ
  iteration : ℕ
  hist : List ℚ
  err : Option ℚ

/-- Inner loop of Model.train (base.py lines 90-115): for self.iteration in
range(1, iterations+1) select a batch, run the hooks and train_step, then
break on error < error_break or on _all_close of the error history, else
push the error and evict the oldest (append then pop(0)).  fuel counts the
remaining passes and i is the last assigned iteration number. -/
def innerLoop (M : ModelI σ) (psel : Mat → Mat → Mat × Mat) (inp tgt : Mat)
    (error_break error_stagnant_threshold : ℚ) :
    ℕ → ℕ → TrainState σ → TrainState σ
  | 0, _, st => st
  | fuel + 1, i, st =>
    let pat := psel inp tgt
    let s1 := M.pre_iteration st.s pat.1 pat.2
    let r := M.train_step s1 pat.1 pat.2
    let s3 := M.post_iteration r.1 pat.1 pat.2
    match r.2 with
    | none =>
      innerLoop M psel inp tgt error_break error_stagnant_threshold fuel
        (i + 1) ⟨s3, i + 1, st.hist, none⟩
    | some e =>
      if e < error_break then ⟨s3, i + 1, st.hist, some e⟩
      else if _all_close st.hist e error_stagnant_threshold then
        ⟨s3, i + 1, st.hist, some e⟩
      else
        innerLoop M psel inp tgt error_break error_stagnant_threshold fuel
          (i + 1) ⟨s3, i + 1, (st.hist ++ [e]).tail, some e⟩

/-- Outer retry loop of Model.train (base.py lines 89-124): run the inner
loop, stop when out of retries (attemptsLeft = 0, mirroring
attempt >= retries) or when the error is defined and avg_mse <= error_break
(avg_mse is not evaluated when out of retries, mirroring the or
short-circuit), else self.reset() and retry.  The error history and the
error variable thread through attempts unchanged; a raising reset aborts
with the exception.  The second component records the error history at the
entry of each attempt; it is written only, never read, so it observes the
loop without altering it. -/
def outerLoop (M : ModelI σ) (psel : Mat → Mat → Mat × Mat) (inp tgt : Mat)
    (iterations : ℕ) (error_break error_stagnant_threshold : ℚ) :
    ℕ → TrainState σ → Except String (TrainState σ) × List (List ℚ)
  | attemptsLeft, st =>
    let st1 := innerLoop M psel inp tgt error_break error_stagnant_threshold
      iterations 0 st
    match attemptsLeft with
    | 0 => (Except.ok st1, [st.hist])
    | n + 1 =>
      if st1.err.isSome && decide (M.avg_mse st1.s inp tgt ≤ error_break) then
        (Except.ok st1, [st.hist])
      else
        match M.reset st1.s with
        | Except.error msg => (Except.error msg, [st.hist])
        | Except.ok s2 =>
          let r := outerLoop M psel inp tgt iterations error_break
            error_stagnant_threshold n ⟨s2, st1.iteration, st1.hist, st1.err⟩
          (r.1, st.hist :: r.2)

/-- Sentinel seeding the error history (base.py line 86). -/
def errorSentinel : ℚ := 10 ^ 10

/-- Method Model.train (base.py lines 57-124): reset bookkeeping, initialize
error_history = [1e10] * error_stagnant_distance once, then run the attempt
loop.  The float64 coercion of raw inputs is the identity here since the
embedding is already numeric. -/
def Model.train (M : ModelI σ) (s0 : σ) (input_matrix target_matrix : Mat)
    (iterations retries : ℕ) (error_break : ℚ)
    (error_stagnant_distance : ℕ) (error_stagnant_threshold : ℚ)
    (pattern_select_func : Mat → Mat → Mat × Mat) :
    Except String (TrainState σ) × List (List ℚ) :=
  outerLoop M pattern_select_func input_matrix target_matrix iterations
    error_break error_stagnant_threshold retries
    ⟨s0, 0, List.replicate error_stagnant_distance errorSentinel, none⟩

/-! The RBF model (src/learning/architecture/rbf.py). -/

/-- Contract of the clustering sub-model (an external collaborator, the SOM):
activate maps a batch to cluster-space distances, train_step trains one
step, train trains fully, reset reinitializes. -/
structure SOMIface (σc : Type) where
  activate : σc → Mat → Mat
  train_step : σc → Mat → Mat → σc
  train : σc → Mat → Mat → σc
  reset : σc → σc

/-- An ephemeral Problem bundling the objective and objective-plus-jacobian
functions (learning.optimize.Problem, external). -/
structure Problem where
  obj_func : Vec → ℚ
  obj_jac_func : Vec → ℚ × Vec

/-- Contract of the optimizer (external): next consumes a Problem and a flat
parameter vector and returns its new state, an optional error and the new
parameters; jacobian is the jacobian it last reported, possibly None. -/
structure OptIface (σo : Type) where
  next : σo → Problem → Vec → σo × Option ℚ × Vec
  jacobian : σo → Option Vec
  reset : σo → σo

/-- Contract of the error function (external): a scalar loss and its
derivative (error, dError/dOutput). -/
structure ErrorFunc where
  call : Mat → Mat → ℚ
  derivative : Mat → Mat → ℚ × Mat

/-- State of an RBF instance: the Model bookkeeping set by Model.__init__
(logging, iteration), the Python converged attribute embedded as
Option Bool with none meaning the attribute does not exist yet, the
hyperparameters, the trainable parameters, the states of the owned
clustering sub-model and optimizer, and the cached similarity tensor. -/
structure RBF (σc σo : Type) where
  logging : Bool
  iteration : ℕ
  converged : Option Bool
  cluster_incrementally : Bool
  variance : ℚ
  shape : ℕ × ℕ
  jacobian_norm_break : ℚ
  scale_by_similarity : Bool
  clustering_state : σc
  weight_matrix : Mat
  bias_vec : Vec
  opt_state : σo
  similarity_tensor : Option Mat

/-- Constructor RBF.__init__ (rbf.py lines 58-113) composed with
Model.__init__ (base.py lines 39-44).  The two draws of
_random_weight_matrix are passed in as W0 and b0 (the random substrate is
external); default arguments (variance = 4/num_clusters, the default SOM
and optimizer) are applied by the caller.  No converged attribute is
created. -/
def RBF.init (num_clusters num_outputs : ℕ) (variance : ℚ)
    (scale_by_similarity cluster_incrementally : Bool)
    (jacobian_norm_break : ℚ) (clustering0 : σc) (opt0 : σo)
    (W0 : Mat) (b0 : Vec) : RBF σc σo :=
  { logging := true
    iteration := 0
    converged := none
    cluster_incrementally := cluster_incrementally
    variance := variance
    shape := (num_clusters, num_outputs)
    jacobian_norm_break := jacobian_norm_break
    scale_by_similarity := scale_by_similarity
    clustering_state := clustering0
    weight_matrix := W0
    bias_vec := b0
    opt_state := opt0
    similarity_tensor := none }

/-- Method Model._reset_bookkeeping (base.py lines 46-47): iteration = 0. -/
def _reset_bookkeeping (m : RBF σc σo) : RBF σc σo := { m with iteration := 0 }

/-- Method Model.reset (base.py lines 49-51): raise NotImplementedError. -/
def Model.reset : Except String Unit := Except.error "NotImplementedError"

/-- Method RBF.reset (rbf.py lines 115-126): first super(RBF, self).reset(),
i.e. Model.reset, which raises NotImplementedError, so the rest of the body
(resetting the clustering sub-model and the optimizer, redrawing the weight
matrix and bias vector as the fresh random draws W0 and b0, clearing the
similarity cache) is reachable only if that call returned. -/
def RBF.reset (som : SOMIface σc) (opt : OptIface σo) (W0 : Mat) (b0 : Vec)
    (m : RBF σc σo) : Except String (RBF σc σo) :=
  match Model.reset with
  | Except.error msg => Except.error msg
  | Except.ok _ =>
    Except.ok { m with
      clustering_state := som.reset m.clustering_state
      opt_state := opt.reset m.opt_state
      weight_matrix := W0
      bias_vec := b0
      similarity_tensor := none }

/-- Row scaling step of RBF.activate (rbf.py lines 139-145): divide the row
by its sum, then replace NaN entries with 1/num_clusters.  The similarity
rows are the range of the gaussian, hence nonnegative, so the row sum is
zero exactly when every entry is zero, in which case every quotient is
0/0 = NaN and the whole row is replaced by the uniform vector of value
1 / shape[-1] = 1 / row length; otherwise no entry is NaN and the row is
just divided by its sum. -/
def scaleRow (row : Vec) : Vec :=
  if row.sum = 0 then List.replicate row.length ((1 : ℚ) / row.length)
  else row.map (fun v => v / row.sum)

/-- Method RBF.activate (rbf.py lines 133-151): the similarity tensor is
gaussian(clustering_model.activate(input), variance) with the external
kernel learning.calculate.gaussian abstracted as gauss; if
scale_by_similarity it is normalized row-wise with the NaN fallback; the
output is similarity . weight_matrix + bias_vec.  Returns the new state
(the freshly cached similarity tensor) with the output. -/
def RBF.activate (som : SOMIface σc) (gauss : Mat → ℚ → Mat)
    (m : RBF σc σo) (input_tensor : Mat) : RBF σc σo × Mat :=
  let simRaw := gauss (som.activate m.clustering_state input_tensor) m.variance
  let sim := if m.scale_by_similarity then simRaw.map scaleRow else simRaw
  ({ m with similarity_tensor := some sim },
   addBias (matMul sim m.weight_matrix m.shape.2) m.bias_vec)

/-- Function _flatten_weights (rbf.py lines 228-230): bias then the
row-major raveled weight matrix. -/
def _flatten_weights (weight_matrix : Mat) (bias_vec : Vec) : Vec :=
  bias_vec ++ weight_matrix.flatten

/-- Reshape of a flat vector into shape.1 rows of shape.2 entries
(numpy reshape on a size-matching vector). -/
def reshape (v : Vec) : ℕ → ℕ → Mat
  | 0, _ => []
  | c + 1, o => v.take o :: reshape (v.drop o) c o

/-- Function _unflatten_weights (rbf.py lines 233-235):
(flat[:shape[1]], flat[shape[1]:].reshape(shape)). -/
def _unflatten_weights (flat_weights : Vec) (shape : ℕ × ℕ) : Vec × Mat :=
  (flat_weights.take shape.2, reshape (flat_weights.drop shape.2) shape.1 shape.2)

/-- Method RBF._get_jacobian (rbf.py lines 215-225): activate the batch,
take the error function's derivative (error, error_jac), then
weight_jacobian = similarity_tensor.T.dot(error_jac) and
bias_jacobian = numpy.sum(error_jac, axis=0); the similarity tensor is the
one just cached by the activate call. -/
def RBF._get_jacobian (som : SOMIface σc) (gauss : Mat → ℚ → Mat)
    (errFn : ErrorFunc) (m : RBF σc σo) (input_matrix target_matrix : Mat) :
    ℚ × Mat × Vec :=
  let a := RBF.activate som gauss m input_matrix
  let d := errFn.derivative a.2 target_matrix
  (d.1, matTdot (a.1.similarity_tensor.getD []) d.2 m.shape.1 m.shape.2,
   colSums m.shape.2 d.2)

/-- Method RBF._get_obj (rbf.py lines 200-203): unflatten the parameter
vector into (bias, weights) and return the error of activating the batch.
The source installs the unflattened parameters on the model as a side
effect; the fields are overwritten again from the optimizer's result by
train_step, so the pure reading returns the same value. -/
def RBF._get_obj (som : SOMIface σc) (gauss : Mat → ℚ → Mat)
    (errFn : ErrorFunc) (m : RBF σc σo) (parameter_vec : Vec)
    (input_matrix target_matrix : Mat) : ℚ :=
  let bw := _unflatten_weights parameter_vec m.shape
  errFn.call
    (RBF.activate som gauss
      { m with bias_vec := bw.1, weight_matrix := bw.2 } input_matrix).2
    target_matrix

/-- Method RBF._get_obj_jac (rbf.py lines 205-210): unflatten the parameter
vector, compute _get_jacobian on the batch, and return the error with
_flatten_weights(weight_jacobian, bias_jacobian). -/
def RBF._get_obj_jac (som : SOMIface σc) (gauss : Mat → ℚ → Mat)
    (errFn : ErrorFunc) (m : RBF σc σo) (parameter_vec : Vec)
    (input_matrix target_matrix : Mat) : ℚ × Vec :=
  let bw := _unflatten_weights parameter_vec m.shape
  let j := RBF._get_jacobian som gauss errFn
    { m with bias_vec := bw.1, weight_matrix := bw.2 }
    input_matrix target_matrix
  (j.1, _flatten_weights j.2.1 j.2.2)

/-- Method RBF.train_step (rbf.py lines 153-178): one clustering step when
co-training, then hand the optimizer a Problem closing over the batch
together with the flattened (weights, bias), unflatten the returned vector
back into (bias, weights), set the converged attribute from the optimizer's
last jacobian, and return the optimizer's error. -/
def RBF.train_step (som : SOMIface σc) (opt : OptIface σo)
    (gauss : Mat → ℚ → Mat) (errFn : ErrorFunc) (m : RBF σc σo)
    (input_matrix target_matrix : Mat) : RBF σc σo × Option ℚ :=
  let m1 := if m.cluster_incrementally then
      { m with clustering_state :=
          som.train_step m.clustering_state input_matrix target_matrix }
    else m
  let prob : Problem :=
    { obj_func := fun xk =>
        RBF._get_obj som gauss errFn m1 xk input_matrix target_matrix
      obj_jac_func := fun xk =>
        RBF._get_obj_jac som gauss errFn m1 xk input_matrix target_matrix }
  let r := opt.next m1.opt_state prob
    (_flatten_weights m1.weight_matrix m1.bias_vec)
  let bw := _unflatten_weights r.2.2 m1.shape
  ({ m1 with
      opt_state := r.1
      bias_vec := bw.1
      weight_matrix := bw.2
      converged := some ((opt.jacobian r.1).isSome &&
        decide (normSq ((opt.jacobian r.1).getD []) <
          m1.jacobian_norm_break ^ 2)) },
   r.2.1)

/-- Method RBF._pre_train (rbf.py lines 180-187): if not co-training, fully
train the clustering sub-model on the dataset.  Nothing in Model.train
invokes it; per its docstring it is for the caller to call before
Model.train. -/
def RBF._pre_train (som : SOMIface σc) (m : RBF σc σo)
    (input_matrix target_matrix : Mat) : RBF σc σo :=
  if m.cluster_incrementally then m
  else
    { m with clustering_state :=
        som.train m.clustering_state input_matrix target_matrix }

/-- Method Model.mse (base.py lines 215-218) for an RBF: the mean of the
squared componentwise difference between activating the input vector and
the target vector; the 1-d activation is embedded as the one-row batch. -/
def RBF.mse (som : SOMIface σc) (gauss : Mat → ℚ → Mat) (m : RBF σc σo)
    (input_vec target_vec : Vec) : ℚ :=
  meanQ (List.zipWith (fun a b => (a - b) ^ 2)
    ((RBF.activate som gauss m [input_vec]).2.getD 0 []) target_vec)

/-- Method Model.avg_mse (base.py lines 207-213) for an RBF: the sum of
per-row mse over the zipped dataset, divided by the input row count. -/
def RBF.avg_mse (som : SOMIface σc) (gauss : Mat → ℚ → Mat) (m : RBF σc σo)
    (input_matrix target_matrix : Mat) : ℚ :=
  ((input_matrix.zip target_matrix).map
    (fun p => RBF.mse som gauss m p.1 p.2)).sum / input_matrix.length

/-- The ModelI view of an RBF, as Model.train consumes it: its train_step
and reset, avg_mse as the convergence gate, and the no-op pre_iteration and
post_iteration inherited from Model. -/
def RBF.toModelI (som : SOMIface σc) (opt : OptIface σo)
    (gauss : Mat → ℚ → Mat) (errFn : ErrorFunc) (W0 : Mat) (b0 : Vec) :
    ModelI (RBF σc σo) :=
  { train_step := fun m inp tgt => RBF.train_step som opt gauss errFn m inp tgt
    reset := fun m => RBF.reset som opt W0 b0 m
    avg_mse := fun m inp tgt => RBF.avg_mse som gauss m inp tgt
    pre_iteration := fun m _ _ => m
    post_iteration := fun m _ _ => m }

/-! Concrete external collaborators used to evaluate the embedding. -/

/-- A trivial clustering sub-model with no state. -/
def unitSOM : SOMIface Unit :=
  { activate := fun _ x => x
    train_step := fun s _ _ => s
    train := fun s _ _ => s
    reset := fun s => s }

/-- A clustering sub-model whose state counts its full train calls. -/
def countSOM : SOMIface ℕ :=
  { activate := fun _ x => x
    train_step := fun s _ _ => s
    train := fun s _ _ => s + 1
    reset := fun _ => 0 }

/-- An optimizer that keeps the parameters and reports error 1. -/
def idOpt : OptIface Unit :=
  { next := fun s _ v => (s, some 1, v)
    jacobian := fun _ => none
    reset := fun s => s }

/-- An error function whose derivative reports the output itself. -/
def echoErr : ErrorFunc :=
  { call := fun _ _ => 0
    derivative := fun out _ => (5, out) }

/-- An identity stand-in for the external gaussian kernel. -/
def gaussId : Mat → ℚ → Mat := fun M _ => M

/-- A concrete single-cluster single-output RBF instance. -/
def rbfC1 : RBF Unit Unit :=
  RBF.init 1 1 4 true false (1 / 10 ^ 10) () () [[0]] [0]

/-! C1.  The spec: reset resets the clustering sub-model and the optimizer,
reinitializes weights and bias to fresh random values in [-0.25, 0.25],
clears the similarity cache, and completes normally.  The code: RBF.reset
first calls super(RBF, self).reset(), which is Model.reset and raises
NotImplementedError, so reset always raises and none of the rest runs. -/

/-- C1: evaluating RBF.reset on a concrete freshly constructed model shows
it raises NotImplementedError (from the super call, Model.reset) instead of
completing the documented reinitialization. -/
theorem C1_reset_raises :
    RBF.reset unitSOM idOpt [[0]] [0] rbfC1 =
      Except.error "NotImplementedError" := rfl

/-! C10.  The converged attribute (embedded as the Option Bool field, none
meaning the Python attribute does not exist) is not created by
construction, by _reset_bookkeeping, or by reset, and is first assigned by
RBF.train_step. -/

/-- C10: a freshly constructed RBF has no converged attribute;
_reset_bookkeeping leaves the attribute exactly as it was; RBF.reset raises
before assigning anything; and RBF.train_step always assigns the attribute
(it becomes some value). -/
theorem C10_converged_attribute {σc σo : Type} (som : SOMIface σc)
    (opt : OptIface σo) (gauss : Mat → ℚ → Mat) (errFn : ErrorFunc)
    (num_clusters num_outputs : ℕ) (variance : ℚ)
    (scale_by_similarity cluster_incrementally : Bool)
    (jacobian_norm_break : ℚ) (clustering0 : σc) (opt0 : σo)
    (W0 : Mat) (b0 : Vec) (m : RBF σc σo) (inp tgt : Mat) :
    (RBF.init num_clusters num_outputs variance scale_by_similarity
      cluster_incrementally jacobian_norm_break clustering0 opt0 W0
      b0).converged = none ∧
    (_reset_bookkeeping m).converged = m.converged ∧
    RBF.reset som opt W0 b0 m = Except.error "NotImplementedError" ∧
    ((RBF.train_step som opt gauss errFn m inp tgt).1.converged).isSome =
      true := by
  refine ⟨rfl, rfl, rfl, ?_⟩
  simp only [RBF.train_step, Option.isSome_some]

/-! C6.  The flatten/unflatten inverse law. -/

/-- Helper: reshaping the row-major flattening of a rectangular matrix with
rows of length o recovers the matrix. -/
theorem reshape_flatten (W : Mat) (o : ℕ) (hrow : ∀ r ∈ W, r.length = o) :
    reshape W.flatten W.length o = W := by
  induction W with
  | nil => rfl
  | cons r W ih =>
    have hr : r.length = o := hrow r (List.mem_cons_self r W)
    simp only [List.flatten_cons, List.length_cons, reshape,
      List.take_left' hr, List.drop_left' hr, List.cons.injEq, true_and]
    exact ih (fun s hs => hrow s (List.mem_cons_of_mem r hs))

/-- C6: for every weight matrix W of shape (c, o) and bias vector b of
length o, _unflatten_weights recovers exactly (b, W) from
_flatten_weights W b, the flat vector being the bias entries followed by
the row-major raveled weight entries. -/
theorem C6_flatten_unflatten (W : Mat) (b : Vec) (c o : ℕ)
    (hW : W.length = c) (hrow : ∀ r ∈ W, r.length = o) (hb : b.length = o) :
    _unflatten_weights (_flatten_weights W b) (c, o) = (b, W) := by
  simp only [_unflatten_weights, _flatten_weights, List.take_left' hb,
    List.drop_left' hb]
  rw [← hW, reshape_flatten W o hrow]

/-- C6 witness: the inverse law evaluated at the concrete pair
W = [[1, 2], [3, 4]], b = [5, 6] of shape (2, 2). -/
theorem C6_flatten_unflatten_witness :
    ([[1, 2], [3, 4]] : Mat).length = 2 ∧
    ([5, 6] : Vec).length = 2 ∧
    _unflatten_weights (_flatten_weights [[1, 2], [3, 4]] [5, 6]) (2, 2) =
      ([5, 6], [[1, 2], [3, 4]]) :=
  ⟨rfl, rfl, C6_flatten_unflatten [[1, 2], [3, 4]] [5, 6] 2 2 rfl
    (by decide) rfl⟩

/-! C9.  select_sample: k distinct in-range indices, both matrices indexed
by the same sequence; size omitted means a full duplicate-free shuffle. -/

/-- Helper: indexing a list by all positions in order recovers the list. -/
theorem map_getD_range (l : Mat) :
    (List.range l.length).map (fun i => l.getD i []) = l := by
  refine List.ext_getElem (by simp) ?_
  intro n h1 h2
  rw [List.getElem_map]
  rw [List.getElem_range]
  exact List.getD_eq_getElem l [] h2

/-- Helper: a duplicate-free list of n naturals all below n is a
permutation of range n. -/
theorem nodup_bounded_perm_range (idxs : List ℕ) (n : ℕ)
    (hnd : idxs.Nodup) (hbound : ∀ i ∈ idxs, i < n)
    (hlen : idxs.length = n) : idxs.Perm (List.range n) := by
  have hsub : idxs ⊆ List.range n := fun i hi =>
    List.mem_range.mpr (hbound i hi)
  obtain ⟨l, hperm, hsl⟩ := hnd.subperm hsub
  have hl : l = List.range n :=
    hsl.eq_of_length (by rw [hperm.length_eq, hlen, List.length_range])
  exact (hl ▸ hperm).symm

/-- C9: with the random draw abstracted as a list of k distinct indices
below the input row count (the contract of random.sample), select_sample
returns two matrices of exactly k rows, both indexed by the same index
sequence, every returned row being a row of the corresponding original;
and when the draw has full length (the size-omitted default, size =
num_rows) each output is a duplicate-free permutation of its original. -/
theorem C9_select_sample (inp tgt : Mat) (idxs : List ℕ) (k : ℕ)
    (hlen : idxs.length = k) (hnd : idxs.Nodup)
    (hbound : ∀ i ∈ idxs, i < inp.length)
    (hrows : tgt.length = inp.length) :
    (select_sample inp tgt idxs).1.length = k ∧
    (select_sample inp tgt idxs).2.length = k ∧
    (∀ j, j < k →
      (select_sample inp tgt idxs).1.getD j [] = inp.getD (idxs.getD j 0) [] ∧
      (select_sample inp tgt idxs).2.getD j [] = tgt.getD (idxs.getD j 0) []) ∧
    (∀ r ∈ (select_sample inp tgt idxs).1, r ∈ inp) ∧
    (∀ r ∈ (select_sample inp tgt idxs).2, r ∈ tgt) ∧
    (idxs.length = inp.length → (select_sample inp tgt idxs).1.Perm inp) ∧
    (idxs.length = inp.length → (select_sample inp tgt idxs).2.Perm tgt) := by
  have hboundt : ∀ i ∈ idxs, i < tgt.length := fun i hi =>
    hrows ▸ hbound i hi
  refine ⟨by simp [select_sample, hlen], by simp [select_sample, hlen],
    ?_, ?_, ?_, ?_, ?_⟩
  · intro j hj
    have hj1 : j < idxs.length := hlen ▸ hj
    constructor
    · rw [List.getD_eq_getElem _ _ (by simpa [select_sample] using hj1),
        List.getD_eq_getElem idxs 0 hj1]
      simp [select_sample]
    · rw [List.getD_eq_getElem _ _ (by simpa [select_sample] using hj1),
        List.getD_eq_getElem idxs 0 hj1]
      simp [select_sample]
  · intro r hr
    obtain ⟨i, hi, hri⟩ := List.mem_map.mp hr
    rw [← hri, List.getD_eq_getElem inp [] (hbound i hi)]
    exact List.getElem_mem _
  · intro r hr
    obtain ⟨i, hi, hri⟩ := List.mem_map.mp hr
    rw [← hri, List.getD_eq_getElem tgt [] (hboundt i hi)]
    exact List.getElem_mem _
  · intro hfull
    have hperm := nodup_bounded_perm_range idxs inp.length hnd hbound hfull
    have := hperm.map (fun i => inp.getD i [])
    rwa [map_getD_range inp] at this
  · intro hfull
    have hperm := nodup_bounded_perm_range idxs tgt.length hnd hboundt
      (hfull.trans hrows.symm)
    have := hperm.map (fun i => tgt.getD i [])
    rwa [map_getD_range tgt] at this

/-- C9 witness: the select_sample properties at the concrete dataset
inp = [[1], [2], [3]], tgt = [[4], [5], [6]] and the full-length draw
[2, 0, 1]. -/
theorem C9_select_sample_witness :
    ([2, 0, 1] : List ℕ).Nodup ∧ (∀ i ∈ ([2, 0, 1] : List ℕ), i < 3) ∧
    (select_sample [[1], [2], [3]] [[4], [5], [6]] [2, 0, 1]).1.length = 3 ∧
    (select_sample [[1], [2], [3]] [[4], [5], [6]] [2, 0, 1]).1.Perm
      [[1], [2], [3]] ∧
    (select_sample [[1], [2], [3]] [[4], [5], [6]] [2, 0, 1]).2.Perm
      [[4], [5], [6]] := by
  have h := C9_select_sample [[1], [2], [3]] [[4], [5], [6]] [2, 0, 1] 3
    rfl (by decide) (by decide) rfl
  exact ⟨by decide, by decide, h.1, h.2.2.2.2.2.1 rfl, h.2.2.2.2.2.2 rfl⟩

/-! C7.  Similarity normalization in RBF.activate with the zero-row
fallback, and the linear output. -/

/-- C7: with scale_by_similarity enabled, RBF.activate caches the raw
similarity tensor S with every row divided by its row sum, where a row of
all-zero similarities becomes the uniform vector 1/num_clusters in every
entry instead of NaN, and returns the normalized tensor multiplied by the
weight matrix plus the bias vector. -/
theorem C7_activate_scaling {σc σo : Type} (som : SOMIface σc)
    (gauss : Mat → ℚ → Mat) (m : RBF σc σo) (input : Mat) (S : Mat)
    (hscale : m.scale_by_similarity = true)
    (hS : S = gauss (som.activate m.clustering_state input) m.variance) :
    (RBF.activate som gauss m input).1.similarity_tensor =
      some (S.map scaleRow) ∧
    (∀ row ∈ S, row.sum ≠ 0 →
      scaleRow row = row.map (fun v => v / row.sum)) ∧
    (∀ row ∈ S, (∀ x ∈ row, x = 0) → row.length = m.shape.1 →
      scaleRow row = List.replicate m.shape.1 (1 / (m.shape.1 : ℚ))) ∧
    (RBF.activate som gauss m input).2 =
      addBias (matMul (S.map scaleRow) m.weight_matrix m.shape.2)
        m.bias_vec := by
  subst hS
  refine ⟨by simp [RBF.activate, hscale], ?_, ?_,
    by simp [RBF.activate, hscale]⟩
  · intro row _ hsum
    simp [scaleRow, hsum]
  · intro row _ hzero hlen
    have hsum : row.sum = 0 := List.sum_eq_zero hzero
    simp [scaleRow, hsum, hlen]

/-- A concrete two-cluster single-output RBF instance with normalization
enabled. -/
def rbfC7 : RBF Unit Unit :=
  RBF.init 2 1 2 true false (1 / 10 ^ 10) () () [[1], [1]] [0]

/-- C7 witness: at the concrete batch whose similarity row is [0, 0], the
normalized row is the uniform vector [1/2, 1/2] and the cached tensor and
output follow the normalized formula. -/
theorem C7_activate_scaling_witness :
    rbfC7.scale_by_similarity = true ∧
    (RBF.activate unitSOM gaussId rbfC7 [[0, 0]]).1.similarity_tensor =
      some ([[0, 0]].map scaleRow) ∧
    scaleRow [0, 0] = List.replicate 2 ((1 : ℚ) / 2) ∧
    (RBF.activate unitSOM gaussId rbfC7 [[0, 0]]).2 =
      addBias (matMul ([[0, 0]].map scaleRow) rbfC7.weight_matrix 1)
        rbfC7.bias_vec := by
  have h := C7_activate_scaling unitSOM gaussId rbfC7 [[0, 0]] [[0, 0]]
    rfl rfl
  exact ⟨rfl, h.1, h.2.2.1 [0, 0] (by decide) (by decide) rfl, h.2.2.2⟩

/-! C8.  The objective-plus-jacobian helper. -/

/-- C8: _get_obj_jac returns the error function's error together with a
flat gradient laid out exactly like the parameter vector, where with S the
similarity tensor cached by activating the batch under the parameters
unflattened from the vector and (e, J) the error function's derivative at
that output, the weight gradient is S-transpose times J and the bias
gradient is the column-wise sum of J over samples. -/
theorem C8_obj_jac {σc σo : Type} (som : SOMIface σc)
    (gauss : Mat → ℚ → Mat) (errFn : ErrorFunc) (m : RBF σc σo) (xk : Vec)
    (inp tgt : Mat) (S out : Mat) (e : ℚ) (J : Mat)
    (hS : (RBF.activate som gauss
      { m with bias_vec := (_unflatten_weights xk m.shape).1,
               weight_matrix := (_unflatten_weights xk m.shape).2 }
      inp).1.similarity_tensor = some S)
    (hout : (RBF.activate som gauss
      { m with bias_vec := (_unflatten_weights xk m.shape).1,
               weight_matrix := (_unflatten_weights xk m.shape).2 }
      inp).2 = out)
    (hd : errFn.derivative out tgt = (e, J)) :
    RBF._get_obj_jac som gauss errFn m xk inp tgt =
      (e, _flatten_weights (matTdot S J m.shape.1 m.shape.2)
        (colSums m.shape.2 J)) := by
  simp only [RBF._get_obj_jac, RBF._get_jacobian, hout, hd, hS,
    Option.getD_some]

/-- A concrete single-cluster single-output RBF instance for evaluating the
jacobian helper, with normalization disabled. -/
def rbfC8 : RBF Unit Unit :=
  RBF.init 1 1 4 false false (1 / 10 ^ 10) () () [[0]] [0]

/-- C8 witness: the jacobian helper evaluated at the concrete parameter
vector [2, 3] (bias 2, weight 3) on the one-sample batch ([[1]], [[0]]),
whose similarity tensor is [[1]] and whose derivative reports (5, [[5]]). -/
theorem C8_obj_jac_witness :
    (RBF.activate unitSOM gaussId
      { rbfC8 with bias_vec := (_unflatten_weights [2, 3] rbfC8.shape).1,
                   weight_matrix :=
                     (_unflatten_weights [2, 3] rbfC8.shape).2 }
      [[1]]).1.similarity_tensor = some [[1]] ∧
    RBF._get_obj_jac unitSOM gaussId echoErr rbfC8 [2, 3] [[1]] [[0]] =
      (5, _flatten_weights (matTdot [[1]] [[5]] 1 1) (colSums 1 [[5]])) := by
  have hS : (RBF.activate unitSOM gaussId
      { rbfC8 with bias_vec := (_unflatten_weights [2, 3] rbfC8.shape).1,
                   weight_matrix :=
                     (_unflatten_weights [2, 3] rbfC8.shape).2 }
      [[1]]).1.similarity_tensor = some [[1]] := by
    simp [RBF.activate, rbfC8, RBF.init, gaussId, unitSOM,
      _unflatten_weights, reshape]
  have hout : (RBF.activate unitSOM gaussId
      { rbfC8 with bias_vec := (_unflatten_weights [2, 3] rbfC8.shape).1,
                   weight_matrix :=
                     (_unflatten_weights [2, 3] rbfC8.shape).2 }
      [[1]]).2 = [[5]] := by
    simp [RBF.activate, rbfC8, RBF.init, gaussId, unitSOM,
      _unflatten_weights, reshape, addBias, matMul, matColumn, dotL, addVec,
      List.range_succ]
    have hr1 : List.range 1 = [0] := rfl
    have hr2 : List.take 1 [(2 : ℚ), 3] = [2] := rfl
    norm_num [hr1, hr2, List.zipWith_cons_cons, List.getD,
      List.getElem?_cons_zero]
  have hd : echoErr.derivative [[5]] [[0]] = (5, [[5]]) := rfl
  exact ⟨hS, C8_obj_jac unitSOM gaussId echoErr rbfC8 [2, 3] [[1]] [[0]]
    [[1]] [[5]] 5 [[5]] hS hout hd⟩

/-! C3.  A train_step that sets the convergence flag.  The generic loop in
base.py never reads self.converged, so training runs to the iteration cap;
the repository's own test (test_base.py, test_Model_custom_converged)
asserts it stops after exactly 1 iteration. -/

/-- The analogue of the test suite's ConvergeModel: state is the optional
converged attribute, train_step assigns it True and returns no error. -/
def convergeModel : ModelI (Option Bool) :=
  { train_step := fun _ _ _ => (some true, none)
    reset := fun s => Except.ok s
    avg_mse := fun _ _ _ => 0
    pre_iteration := fun s _ _ => s
    post_iteration := fun s _ _ => s }

/-- C3: evaluating Model.train on a model whose train_step sets the
convergence flag on every invocation (and returns no error), with an
iteration cap of 7, ends with iteration = 7 and the flag set: the loop
ignores the flag and runs to the cap instead of stopping after exactly 1
iteration. -/
theorem C3_converged_ignored :
    Except.map (fun st => (st.iteration, st.s))
      (Model.train convergeModel none [[0]] [[0]] 7 0 (1 / 500) 5
        (1 / 100000) select_iterative).1 = Except.ok (7, some true) ∧
    (7 : ℕ) ≠ 1 := ⟨rfl, by decide⟩

/-! C4.  The error-history buffer: the code initializes it (and resets
bookkeeping) once before the attempt loop (base.py lines 81-86), not at the
start of every attempt, so attempts after the first inherit the previous
attempt's history. -/

/-- A model whose train_step alternates the errors 1 and 2 (state counts
steps) and whose avg_mse of 5 never meets the convergence gate, forcing a
retry. -/
def alternatingModel : ModelI ℕ :=
  { train_step := fun s _ _ => (s + 1, some (if s % 2 = 0 then 1 else 2))
    reset := fun _ => Except.ok 0
    avg_mse := fun _ _ _ => 5
    pre_iteration := fun s _ _ => s
    post_iteration := fun s _ _ => s }

/-- C4 counterexample: on a concrete run with retries = 1, iterations = 2,
error_break = 0, stagnation window of 2 and threshold 0, the recorded
attempt-entry histories are not all the sentinel buffer: the second attempt
begins with the errors [1, 2] left over from the first attempt, refuting
per-attempt reinitialization. -/
theorem C4_counterexample :
    ¬ ∀ h ∈ (Model.train alternatingModel 0 [[0]] [[0]] 2 1 0 2 0
        select_iterative).2, h = List.replicate 2 errorSentinel := by
  have hrep : List.replicate 2 errorSentinel = [errorSentinel, errorSentinel] :=
    rfl
  have hs1 : ¬ ((1 : ℚ) < 0) := by norm_num
  have hs2 : ¬ ((2 : ℚ) < 0) := by norm_num
  have habs : ∀ a b : ℚ, a ≠ b → |a - b| > 0 := by
    intro a b hab
    rw [gt_iff_lt, abs_sub_pos]
    exact hab
  have ha1 : _all_close [errorSentinel, errorSentinel] 1 0 = false := by
    simp [_all_close, habs errorSentinel 1 (by norm_num [errorSentinel])]
  have ha2 : _all_close [errorSentinel, 1] 2 0 = false := by
    simp [_all_close, habs errorSentinel 2 (by norm_num [errorSentinel])]
  have ha3 : _all_close [1, 2] 1 0 = false := by
    simp [_all_close, habs 2 1 (by norm_num)]
  have ha4 : _all_close [2, 1] 2 0 = false := by
    simp [_all_close, habs 1 2 (by norm_num)]
  have hd5 : decide ((5 : ℚ) ≤ 0) = false := by norm_num
  have htrace : (Model.train alternatingModel 0 [[0]] [[0]] 2 1 0 2 0
      select_iterative).2 = [[errorSentinel, errorSentinel], [1, 2]] := by
    simp [Model.train, outerLoop, innerLoop, alternatingModel,
      select_iterative, hrep, hs1, hs2, ha1, ha2, ha3, ha4, hd5]
  intro hall
  have hmem : ([1, 2] : List ℚ) ∈ (Model.train alternatingModel 0 [[0]]
      [[0]] 2 1 0 2 0 select_iterative).2 := by
    rw [htrace]
    simp
  have h := hall [1, 2] hmem
  rw [hrep] at h
  have h1 : (1 : ℚ) = errorSentinel := by
    have := List.head_eq_of_cons_eq h
    exact this
  norm_num [errorSentinel] at h1

/-- Relation between successive attempt-entry histories: the next attempt
enters with exactly the history some inner-loop run leaves when started
from the previous entry history. -/
def histStep (M : ModelI σ) (psel : Mat → Mat → Mat × Mat) (inp tgt : Mat)
    (eb thr : ℚ) (iterations : ℕ) (h h' : List ℚ) : Prop :=
  ∃ s i e, h' = (innerLoop M psel inp tgt eb thr iterations 0
    ⟨s, i, h, e⟩).hist

/-- Helper: the attempt-entry trace of the outer loop starts with the
history the loop was entered with, and each later entry is the exit
history of the previous attempt's inner loop. -/
theorem outerLoop_trace_chain (M : ModelI σ) (psel : Mat → Mat → Mat × Mat)
    (inp tgt : Mat) (iterations : ℕ) (eb thr : ℚ) :
    ∀ n st,
      (outerLoop M psel inp tgt iterations eb thr n st).2.head? =
        some st.hist ∧
      List.Chain' (histStep M psel inp tgt eb thr iterations)
        (outerLoop M psel inp tgt iterations eb thr n st).2 := by
  intro n
  induction n with
  | zero =>
    intro st
    exact ⟨by simp [outerLoop], by simp [outerLoop, List.chain'_singleton]⟩
  | succ n ih =>
    intro st
    by_cases hc : ((innerLoop M psel inp tgt eb thr iterations 0
        st).err.isSome && decide (M.avg_mse (innerLoop M psel inp tgt eb thr
        iterations 0 st).s inp tgt ≤ eb)) = true
    · exact ⟨by simp [outerLoop, hc], by simp [outerLoop, hc]⟩
    · cases hr : M.reset (innerLoop M psel inp tgt eb thr iterations 0
        st).s with
      | error msg =>
        exact ⟨by simp [outerLoop, hc, hr], by simp [outerLoop, hc, hr]⟩
      | ok s2 =>
        have ihs := ih ⟨s2, (innerLoop M psel inp tgt eb thr iterations 0
          st).iteration, (innerLoop M psel inp tgt eb thr iterations 0
          st).hist, (innerLoop M psel inp tgt eb thr iterations 0 st).err⟩
        refine ⟨by simp [outerLoop, hc, hr], ?_⟩
        have htr : (outerLoop M psel inp tgt iterations eb thr (n + 1)
            st).2 = st.hist :: (outerLoop M psel inp tgt iterations eb thr
            n ⟨s2, (innerLoop M psel inp tgt eb thr iterations 0
            st).iteration, (innerLoop M psel inp tgt eb thr iterations 0
            st).hist, (innerLoop M psel inp tgt eb thr iterations 0
            st).err⟩).2 := by
          simp [outerLoop, hc, hr]
        rw [htr, List.chain'_cons']
        refine ⟨?_, ihs.2⟩
        intro y hy
        rw [ihs.1, Option.mem_some_iff] at hy
        refine ⟨st.s, st.iteration, st.err, ?_⟩
        rw [← hy]

/-- C4 amended: Model.train resets bookkeeping and seeds the error history
with sentinels exactly once, before the first attempt: the first attempt
always begins with the sentinel buffer of length error_stagnant_distance,
and every later attempt begins with the history left at the end of the
previous attempt's inner loop, leftover error values included. -/
theorem C4_amended (M : ModelI σ) (s0 : σ) (inp tgt : Mat)
    (iterations retries : ℕ) (eb : ℚ) (dstag : ℕ) (thr : ℚ)
    (psel : Mat → Mat → Mat × Mat) :
    (Model.train M s0 inp tgt iterations retries eb dstag thr psel).2.head?
      = some (List.replicate dstag errorSentinel) ∧
    List.Chain' (histStep M psel inp tgt eb thr iterations)
      (Model.train M s0 inp tgt iterations retries eb dstag thr psel).2 := by
  have h := outerLoop_trace_chain M psel inp tgt iterations eb thr retries
    ⟨s0, 0, List.replicate dstag errorSentinel, none⟩
  exact ⟨h.1, h.2⟩

/-! C5.  Stagnation break: constant error stops the loop at iteration
error_stagnant_distance + 1. -/

/-- Helper: a window holding only copies of the current error is within any
nonnegative threshold of it. -/
theorem all_close_replicate (k : ℕ) (e thr : ℚ) (hthr : 0 ≤ thr) :
    _all_close (List.replicate k e) e thr = true := by
  induction k with
  | zero => rfl
  | succ k ih =>
    rw [List.replicate_succ, _all_close]
    rw [if_neg (by simp [hthr])]
    exact ih

/-- Helper: a window whose first value is farther than the threshold from
the current error is not all-close to it. -/
theorem all_close_cons_far (v e thr : ℚ) (rest : List ℚ)
    (hfar : thr < |v - e|) : _all_close (v :: rest) e thr = false := by
  rw [_all_close, if_pos hfar]

/-- Helper: when train_step always reports the same error e, with e not
below error_break, a nonnegative stagnation threshold smaller than the
distance from the sentinel to e, and a window of m sentinels followed by k
copies of e, the inner loop breaks after exactly m + 1 more passes. -/
theorem innerLoop_const_stag (M : ModelI σ) (psel : Mat → Mat → Mat × Mat)
    (inp tgt : Mat) (eb thr e : ℚ)
    (hstep : ∀ s a b, (M.train_step s a b).2 = some e)
    (heb : ¬ e < eb) (hthr : 0 ≤ thr) (hbig : thr < |errorSentinel - e|) :
    ∀ m k fuel i (st : TrainState σ),
      st.hist = List.replicate m errorSentinel ++ List.replicate k e →
      m + 1 ≤ fuel →
      (innerLoop M psel inp tgt eb thr fuel i st).iteration = i + m + 1 := by
  intro m
  induction m with
  | zero =>
    intro k fuel i st hh hf
    obtain ⟨f, rfl⟩ : ∃ f, fuel = f + 1 := ⟨fuel - 1, by omega⟩
    have hac : _all_close st.hist e thr = true := by
      rw [hh, List.replicate_zero, List.nil_append]
      exact all_close_replicate k e thr hthr
    simp only [innerLoop, hstep]
    rw [if_neg heb, if_pos hac]
  | succ m ih =>
    intro k fuel i st hh hf
    obtain ⟨f, rfl⟩ : ∃ f, fuel = f + 1 := ⟨fuel - 1, by omega⟩
    have hh1 : st.hist = errorSentinel ::
        (List.replicate m errorSentinel ++ List.replicate k e) := by
      rw [hh, List.replicate_succ, List.cons_append]
    have hac : ¬ _all_close st.hist e thr = true := by
      rw [hh1, all_close_cons_far errorSentinel e thr _ hbig]
      exact Bool.false_ne_true
    simp only [innerLoop, hstep]
    rw [if_neg heb, if_neg hac]
    have hres := ih (k + 1) f (i + 1)
      ⟨M.post_iteration (M.train_step (M.pre_iteration st.s
          (psel inp tgt).1 (psel inp tgt).2) (psel inp tgt).1
          (psel inp tgt).2).1 (psel inp tgt).1 (psel inp tgt).2,
        i + 1, (st.hist ++ [e]).tail, some e⟩
      (by rw [hh1]
          simp only [List.cons_append, List.tail_cons, List.append_assoc]
          rw [← List.replicate_succ' k e])
      (by omega)
    rw [hres]
    omega

/-- C5: for a model whose train_step reports the same error e on every
iteration, with e at least error_break, the stagnation threshold
nonnegative and smaller than the distance from the 1e10 sentinel to e, and
an iteration cap of at least d + 1, Model.train with stagnation distance d
and no retries stops at iteration d + 1. -/
theorem C5_stagnation (M : ModelI σ) (s0 : σ) (inp tgt : Mat)
    (iterations : ℕ) (eb : ℚ) (d : ℕ) (thr e : ℚ)
    (psel : Mat → Mat → Mat × Mat)
    (hstep : ∀ s a b, (M.train_step s a b).2 = some e)
    (heb : eb ≤ e) (hthr : 0 ≤ thr) (hbig : thr < |errorSentinel - e|)
    (hiter : d + 1 ≤ iterations) :
    Except.map (fun st => st.iteration)
      (Model.train M s0 inp tgt iterations 0 eb d thr psel).1 =
      Except.ok (d + 1) := by
  have h := innerLoop_const_stag M psel inp tgt eb thr e hstep
    (not_lt.mpr heb) hthr hbig d 0 iterations 0
    ⟨s0, 0, List.replicate d errorSentinel, none⟩ (by simp) hiter
  simp only [Model.train, outerLoop, Except.map]
  rw [h]
  norm_num

/-- A model reporting the constant error 1 from every train_step. -/
def constErrModel : ModelI Unit :=
  { train_step := fun _ _ _ => ((), some 1)
    reset := fun s => Except.ok s
    avg_mse := fun _ _ _ => 1
    pre_iteration := fun s _ _ => s
    post_iteration := fun s _ _ => s }

/-- C5 witness: with constant error 1, error_break 1/500, threshold
1/100000, stagnation distance 5 and cap 10, training stops at iteration
6. -/
theorem C5_stagnation_witness :
    ((1 : ℚ) / 500 ≤ 1) ∧ ((0 : ℚ) ≤ 1 / 100000) ∧
    ((1 : ℚ) / 100000 < |errorSentinel - 1|) ∧ (5 + 1 ≤ 10) ∧
    Except.map (fun st => st.iteration)
      (Model.train constErrModel () [[0]] [[0]] 10 0 (1 / 500) 5
        (1 / 100000) select_iterative).1 = Except.ok 6 := by
  have hbig : (1 : ℚ) / 100000 < |errorSentinel - 1| := by
    have habs : |errorSentinel - 1| = errorSentinel - 1 :=
      abs_of_pos (by norm_num [errorSentinel])
    rw [habs]
    norm_num [errorSentinel]
  refine ⟨by norm_num, by norm_num, hbig, by norm_num, ?_⟩
  exact C5_stagnation constErrModel () [[0]] [[0]] 10 (1 / 500) 5
    (1 / 100000) 1 select_iterative (fun _ _ _ => rfl) (by norm_num)
    (by norm_num) hbig (by norm_num)

/-! C2.  The pre-training hook.  Model.train (base.py lines 57-124) never
invokes _pre_train, so with cluster_incrementally = False the clustering
sub-model is never trained by a train call; the hook itself does perform
the full clustering training, but per its docstring the caller must invoke
it before Model.train. -/

/-- An optimizer reporting no error (train_step then returns None). -/
def noErrOpt : OptIface Unit :=
  { next := fun s _ v => (s, none, v)
    jacobian := fun _ => none
    reset := fun s => s }

/-- A concrete RBF over the counting clustering sub-model, constructed with
cluster_incrementally = False. -/
def rbfC2 : RBF ℕ Unit :=
  RBF.init 1 1 4 false false (1 / 10 ^ 10) 0 () [[0]] [0]

/-- The ModelI view of rbfC2 under the counting clustering sub-model. -/
def modelC2 : ModelI (RBF ℕ Unit) :=
  RBF.toModelI countSOM noErrOpt gaussId echoErr [[0]] [0]

/-- C2 counterexample: training the concrete non-co-training RBF for one
iteration executes a supervised train_step (iteration reaches 1) yet the
clustering sub-model's full-train count stays 0, refuting that train fully
trains the clustering sub-model before the first supervised step. -/
theorem C2_counterexample :
    Except.map (fun st => st.iteration)
      (Model.train modelC2 rbfC2 [[1]] [[1]] 1 0 (1 / 500) 5 (1 / 100000)
        select_iterative).1 = Except.ok 1 ∧
    ¬ ∃ c, Except.map (fun st => st.s.clustering_state)
      (Model.train modelC2 rbfC2 [[1]] [[1]] 1 0 (1 / 500) 5 (1 / 100000)
        select_iterative).1 = Except.ok c ∧ 1 ≤ c := by
  refine ⟨rfl, ?_⟩
  rintro ⟨c, hc, h1⟩
  have he : Except.map (fun st => st.s.clustering_state)
      (Model.train modelC2 rbfC2 [[1]] [[1]] 1 0 (1 / 500) 5 (1 / 100000)
        select_iterative).1 = Except.ok 0 := rfl
  rw [he] at hc
  injection hc with hc0
  omega

/-- Helper: the inner loop preserves any state invariant preserved by
train_step and the two iteration hooks. -/
theorem innerLoop_invariant (M : ModelI σ) (psel : Mat → Mat → Mat × Mat)
    (inp tgt : Mat) (eb thr : ℚ) (P : σ → Prop)
    (hstep : ∀ s a b, P s → P (M.train_step s a b).1)
    (hpre : ∀ s a b, P s → P (M.pre_iteration s a b))
    (hpost : ∀ s a b, P s → P (M.post_iteration s a b)) :
    ∀ fuel i (st : TrainState σ), P st.s →
      P (innerLoop M psel inp tgt eb thr fuel i st).s := by
  intro fuel
  induction fuel with
  | zero =>
    intro i st h
    exact h
  | succ fuel ih =>
    intro i st h
    have h3 : P (M.post_iteration (M.train_step (M.pre_iteration st.s
        (psel inp tgt).1 (psel inp tgt).2) (psel inp tgt).1
        (psel inp tgt).2).1 (psel inp tgt).1 (psel inp tgt).2) :=
      hpost _ _ _ (hstep _ _ _ (hpre _ _ _ h))
    simp only [innerLoop]
    split
    · exact ih _ _ h3
    · split
      · exact h3
      · split
        · exact h3
        · exact ih _ _ h3

/-- Helper: when the outer loop returns normally, the final state satisfies
any invariant preserved by the step functions and by successful resets. -/
theorem outerLoop_ok_invariant (M : ModelI σ) (psel : Mat → Mat → Mat × Mat)
    (inp tgt : Mat) (iterations : ℕ) (eb thr : ℚ) (P : σ → Prop)
    (hstep : ∀ s a b, P s → P (M.train_step s a b).1)
    (hpre : ∀ s a b, P s → P (M.pre_iteration s a b))
    (hpost : ∀ s a b, P s → P (M.post_iteration s a b))
    (hreset : ∀ s s2, M.reset s = Except.ok s2 → P s → P s2) :
    ∀ n (st : TrainState σ) stf,
      (outerLoop M psel inp tgt iterations eb thr n st).1 = Except.ok stf →
      P st.s → P stf.s := by
  intro n
  induction n with
  | zero =>
    intro st stf hok h
    have h1 := innerLoop_invariant M psel inp tgt eb thr P hstep hpre hpost
      iterations 0 st h
    simp only [outerLoop] at hok
    injection hok with hok0
    rw [← hok0]
    exact h1
  | succ n ih =>
    intro st stf hok h
    have h1 := innerLoop_invariant M psel inp tgt eb thr P hstep hpre hpost
      iterations 0 st h
    by_cases hc : ((innerLoop M psel inp tgt eb thr iterations 0
        st).err.isSome && decide (M.avg_mse (innerLoop M psel inp tgt eb thr
        iterations 0 st).s inp tgt ≤ eb)) = true
    · simp only [outerLoop, hc, if_true] at hok
      injection hok with hok0
      rw [← hok0]
      exact h1
    · cases hr : M.reset (innerLoop M psel inp tgt eb thr iterations 0
        st).s with
      | error msg =>
        rw [show (outerLoop M psel inp tgt iterations eb thr (n + 1)
            st).1 = Except.error msg from by simp [outerLoop, hc, hr]]
          at hok
        exact absurd hok (by simp)
      | ok s2 =>
        have hok2 : (outerLoop M psel inp tgt iterations eb thr n
            ⟨s2, (innerLoop M psel inp tgt eb thr iterations 0
            st).iteration, (innerLoop M psel inp tgt eb thr iterations 0
            st).hist, (innerLoop M psel inp tgt eb thr iterations 0
            st).err⟩).1 = Except.ok stf := by
          rw [← hok]
          simp [outerLoop, hc, hr]
        exact ih _ stf hok2 (hreset _ _ hr h1)

/-- Helper: a non-co-training RBF's train_step leaves the clustering state
and the co-training flag unchanged. -/
theorem RBF.train_step_clustering {σc σo : Type} (som : SOMIface σc)
    (opt : OptIface σo) (gauss : Mat → ℚ → Mat) (errFn : ErrorFunc)
    (m : RBF σc σo) (hinc : m.cluster_incrementally = false)
    (inp tgt : Mat) :
    ((RBF.train_step som opt gauss errFn m inp tgt).1).clustering_state =
      m.clustering_state ∧
    ((RBF.train_step som opt gauss errFn m inp
      tgt).1).cluster_incrementally = false := by
  simp [RBF.train_step, hinc]

/-- C2 amended: for every RBF constructed with cluster_incrementally =
False, a normally returning Model.train leaves the clustering sub-model
state exactly as it was (the sub-model is never trained during train),
while the pre-training hook _pre_train, when invoked, does fully train the
clustering sub-model on the given dataset; the hook is for the caller to
run before train, not part of it. -/
theorem C2_amended {σc σo : Type} (som : SOMIface σc) (opt : OptIface σo)
    (gauss : Mat → ℚ → Mat) (errFn : ErrorFunc) (W0 : Mat) (b0 : Vec)
    (m : RBF σc σo) (hinc : m.cluster_incrementally = false)
    (inp tgt : Mat) (iterations retries : ℕ) (eb : ℚ) (dstag : ℕ)
    (thr : ℚ) (psel : Mat → Mat → Mat × Mat) (stf : TrainState (RBF σc σo))
    (hok : (Model.train (RBF.toModelI som opt gauss errFn W0 b0) m inp tgt
      iterations retries eb dstag thr psel).1 = Except.ok stf) :
    stf.s.clustering_state = m.clustering_state ∧
    (RBF._pre_train som m inp tgt).clustering_state =
      som.train m.clustering_state inp tgt := by
  constructor
  · have hP := outerLoop_ok_invariant (RBF.toModelI som opt gauss errFn W0
      b0) psel inp tgt iterations eb thr
      (fun s => s.cluster_incrementally = false ∧
        s.clustering_state = m.clustering_state)
      (fun s a b hs => by
        have h2 := RBF.train_step_clustering som opt gauss errFn s hs.1 a b
        exact ⟨h2.2, h2.1.trans hs.2⟩)
      (fun s a b hs => hs) (fun s a b hs => hs)
      (fun s s2 hr hs => by
        rw [show (RBF.toModelI som opt gauss errFn W0 b0).reset s =
          Except.error "NotImplementedError" from rfl] at hr
        exact absurd hr (by simp))
      retries ⟨m, 0, List.replicate dstag errorSentinel, none⟩ stf hok
      ⟨hinc, rfl⟩
    exact hP.2
  · simp [RBF._pre_train, hinc]

/-- The final training state of the concrete C2 run, extracted from the
training result. -/
def stC2 : TrainState (RBF ℕ Unit) :=
  ((Model.train modelC2 rbfC2 [[1]] [[1]] 1 0 (1 / 500) 5 (1 / 100000)
    select_iterative).1.toOption).getD ⟨rbfC2, 0, [], none⟩

/-- C2 amended witness: the amended statement evaluated on the concrete
non-co-training RBF run; the clustering state is untouched by train, and
one _pre_train call trains the counting sub-model once. -/
theorem C2_amended_witness :
    rbfC2.cluster_incrementally = false ∧
    (Model.train modelC2 rbfC2 [[1]] [[1]] 1 0 (1 / 500) 5 (1 / 100000)
      select_iterative).1 = Except.ok stC2 ∧
    stC2.s.clustering_state = rbfC2.clustering_state ∧
    (RBF._pre_train countSOM rbfC2 [[1]] [[1]]).clustering_state =
      countSOM.train rbfC2.clustering_state [[1]] [[1]] := by
  have h := C2_amended countSOM noErrOpt gaussId echoErr [[0]] [0] rbfC2
    rfl [[1]] [[1]] 1 0 (1 / 500) 5 (1 / 100000) select_iterative stC2 rfl
  exact ⟨rfl, rfl, h.1, h.2⟩

end Learning
